import Mathlib

/-!
Shallow embedding of the `uzzz/httpcache` repository: the in-process LRU
byte store (`store/memory/memory.go`), the gob serialization of cached
responses, and the caching middleware (`httpcache.go`).

Byte slices are modelled through an explicit heap of buffers (`Heap`), so
that Go's slice aliasing is visible: a `Buf` reference identifies a buffer
in the heap, `Heap.get` reads through it, and mutation of a buffer is an
update of the heap.  The intrusive doubly linked access list is modelled as
an arena of nodes addressed by integer ids; a nil pointer is `none`, and a
dereference of `none` produces the runtime fault `RtErr.nilDeref`
(mirroring a Go nil-pointer panic).  The explicit `panic(...)` calls in
`evict` are modelled by `RtErr.panicMsg`.
-/

namespace Httpcache

/-- Structural equality test for `Except` results, so that concrete runs
can be settled by `decide`. -/
instance {ε α : Type} [DecidableEq ε] [DecidableEq α] : DecidableEq (Except ε α) := fun x y =>
  match x, y with
  | .error e, .error e' =>
    if h : e = e' then isTrue (by rw [h]) else isFalse (fun hc => h (Except.error.inj hc))
  | .error _, .ok _ => isFalse (fun hc => Except.noConfusion hc)
  | .ok _, .error _ => isFalse (fun hc => Except.noConfusion hc)
  | .ok a, .ok b =>
    if h : a = b then isTrue (by rw [h]) else isFalse (fun hc => h (Except.ok.inj hc))

/-- Runtime faults: Go panics.  `nilDeref` models a nil-pointer
dereference, `panicMsg` the explicit `panic(...)` calls in `evict`,
`badRef` a dangling arena id (unreachable from the modelled API), and
`outOfFuel` exhaustion of the structural fuel of the eviction loop
(unreachable: each iteration deletes one key from the data map). -/
inductive RtErr where
  | nilDeref : RtErr
  | panicMsg : String → RtErr
  | badRef : RtErr
  | outOfFuel : RtErr
deriving DecidableEq, Repr

/-- A byte buffer in the heap: a list of byte values. -/
abbrev Buf := List Nat

/-- The slice heap: buffers addressed by id, with an allocation counter.
Models the Go heap as far as `[]byte` values are concerned. -/
structure Heap where
  nextBuf : Nat
  bufs : List (Nat × Buf)
deriving DecidableEq, Repr

/-- Read a slice reference: `none` is a nil slice (reads as empty, as Go's
`len(nil) = 0`); a dangling id also reads as empty. -/
def Heap.get (h : Heap) (b : Option Nat) : Buf :=
  match b with
  | none => []
  | some id => ((h.bufs.find? (fun p => p.1 == id)).map (fun p => p.2)).getD []

/-- Allocate a fresh buffer holding `content`; models `make([]byte, n)`
followed by `copy`. -/
def Heap.alloc (h : Heap) (content : Buf) : Heap × Nat :=
  ({ nextBuf := h.nextBuf + 1, bufs := (h.nextBuf, content) :: h.bufs }, h.nextBuf)

/-- Overwrite the contents of buffer `id`: models mutating a `[]byte`
through one of its references. -/
def Heap.write (h : Heap) (id : Nat) (content : Buf) : Heap :=
  { h with bufs := h.bufs.map (fun p => if p.1 == id then (p.1, content) else p) }

/-- The empty heap. -/
def Heap.empty : Heap := { nextBuf := 0, bufs := [] }

/-- Model of `accessListNode` of memory.go: intrusive doubly linked list node.
`next`/`prev` are pointers, modelled as arena ids; `none` is nil. -/
structure Node where
  next : Option Nat
  prev : Option Nat
  key : Nat
deriving DecidableEq, Repr

/-- Arena lookup of a node by id. -/
def aFind (a : List (Nat × Node)) (id : Nat) : Option Node :=
  ((a.find? (fun p => p.1 == id)).map (fun p => p.2))

/-- Arena update of the node at `id`. -/
def aUpd (a : List (Nat × Node)) (id : Nat) (f : Node → Node) : List (Nat × Node) :=
  a.map (fun p => if p.1 == id then (p.1, f p.2) else p)

/-- Model of `item` of memory.go.  `dataBuf` is the `data []byte` field (a slice
reference, `none` = nil), `expires` the absolute expiry instant
(`0` models Go's zero `time.Time`), `alNode` the `*accessListNode`. -/
structure Item where
  dataBuf : Option Nat
  expires : Int
  alNode : Option Nat
deriving DecidableEq, Repr

/-- Lookup in the key → item map. -/
def mapFind (m : List (Nat × Item)) (k : Nat) : Option Item :=
  ((m.find? (fun p => p.1 == k)).map (fun p => p.2))

/-- Go map assignment `m[k] = v`. -/
def mapSet (m : List (Nat × Item)) (k : Nat) (v : Item) : List (Nat × Item) :=
  (k, v) :: m.filter (fun p => p.1 != k)

/-- Go `delete(m, k)`. -/
def mapDel (m : List (Nat × Item)) (k : Nat) : List (Nat × Item) :=
  m.filter (fun p => p.1 != k)

/-- Model of `Store` of memory.go: the arena of access-list nodes (with an
allocation counter modelling pointer identity), the `head`/`tail`
pointers of the `accessList`, the `data` map, and the byte accounting.
The mutex is not modelled: every operation runs under it. -/
structure MemState where
  nextId : Nat
  nodes : List (Nat × Node)
  head : Option Nat
  tail : Option Nat
  data : List (Nat × Item)
  sizeBytes : Int
  capacityBytes : Int
deriving DecidableEq, Repr

/-- Model of `NewStore` with `WithCapacity` applied (validation aside): empty map,
empty access list, zero resident bytes. -/
def newStore (capacityBytes : Int) : MemState :=
  { nextId := 0, nodes := [], head := none, tail := none, data := []
    sizeBytes := 0, capacityBytes := capacityBytes }

/-- Dereference an arena id. -/
def aGet (st : MemState) (id : Nat) : Except RtErr Node :=
  match aFind st.nodes id with
  | some n => .ok n
  | none => .error .badRef

/-- Model of `accessList.addToHead` of memory.go, statement by statement:
allocate the node, fix `tail` or the old head's `prev`, set the node's
`next`, move `head`. -/
def addToHead (st : MemState) (key : Nat) : MemState :=
  let nid := st.nextId
  let st₁ := { st with nextId := nid + 1
                       nodes := (nid, { next := none, prev := none, key := key }) :: st.nodes }
  let st₂ :=
    match st₁.head with
    | none => { st₁ with tail := some nid }
    | some h => { st₁ with nodes := aUpd st₁.nodes h (fun n => { n with prev := some nid }) }
  let st₃ := { st₂ with nodes := aUpd st₂.nodes nid (fun n => { n with next := st₂.head }) }
  { st₃ with head := some nid }

/-- Model of `accessList.remove` of memory.go.  The two `if` branches dereference
`item.prev` and `item.next` when `item` is not the head / tail; a nil
field there is a nil-pointer panic. -/
def alRemove (st : MemState) (id : Nat) : Except RtErr MemState := do
  let node ← aGet st id
  let st₁ ←
    if st.head = some id then
      pure { st with head := node.next }
    else
      match node.prev with
      | none => Except.error RtErr.nilDeref
      | some p => pure { st with nodes := aUpd st.nodes p (fun n => { n with next := node.next }) }
  if st₁.tail = some id then
    pure { st₁ with tail := node.prev }
  else
    match node.next with
    | none => Except.error RtErr.nilDeref
    | some nx => pure { st₁ with nodes := aUpd st₁.nodes nx (fun n => { n with prev := node.prev }) }

/-- Model of `accessList.removeFromTail` of memory.go.  Returns `(none, st)` for
Go's `(0, false)` when the list is empty; otherwise unlinks the tail node
and returns its key.  `al.head.next` dereferences `head`. -/
def removeFromTail (st : MemState) : Except RtErr (Option Nat × MemState) := do
  match st.tail with
  | none => pure (none, st)
  | some t =>
    let hid ← match st.head with
              | none => Except.error RtErr.nilDeref
              | some h => pure h
    let hnode ← aGet st hid
    let st₁ ←
      if hnode.next = none then
        pure { st with head := none }
      else do
        let tnode ← aGet st t
        match tnode.prev with
        | none => Except.error RtErr.nilDeref
        | some p => pure { st with nodes := aUpd st.nodes p (fun n => { n with next := none }) }
    let tnode₁ ← aGet st₁ t
    pure (some tnode₁.key, { st₁ with tail := tnode₁.prev })

/-- The loop of `Store.evict`, with structural fuel.  Each iteration pops
the tail of the access list (`panic` if the list is exhausted), looks the
key up in the data map (`panic` if missing), adds the victim's payload
length to `evictedBytes`, and deletes the key.  Each non-faulting
iteration deletes one key from the data map, so fuel `st.data.length + 1`
can never run out.  Note that, exactly as in the source, `s.sizeBytes` is
NOT decremented. -/
def evictLoop (h : Heap) (bytes : Int) : Nat → Int → MemState → Except RtErr MemState
  | fuel, evicted, st =>
    if evicted < bytes then
      match fuel with
      | 0 => .error .outOfFuel
      | fuel' + 1 =>
        match removeFromTail st with
        | .error e => .error e
        | .ok (none, _) => .error (.panicMsg "no more items in the access list")
        | .ok (some key, st₁) =>
          match mapFind st₁.data key with
          | none => .error (.panicMsg "key from the access list not found")
          | some i =>
            evictLoop h bytes fuel' (evicted + ((h.get i.dataBuf).length : Int))
              { st₁ with data := mapDel st₁.data key }
    else
      pure st

/-- Model of `Store.evict` of memory.go. -/
def evict (st : MemState) (h : Heap) (bytes : Int) : Except RtErr MemState :=
  evictLoop h bytes (st.data.length + 1) 0 st

/-- Result of `Store.Get`: `notFound` is the `httpcache.ErrNoEntry`
return, `found b` the `(i.data, nil)` return — `b` is the slice reference
held by the store (NOT a copy; this is the source's `return i.data`). -/
inductive GetRes where
  | notFound : GetRes
  | found : Option Nat → GetRes
deriving DecidableEq, Repr

/-- Model of `Store.Get` of memory.go.  `now` is the value of `time.Now()` during
the call.  Absent key → `ErrNoEntry` with the state untouched; present but
expired (`!expires.IsZero() && expires.Before(now)`) → `ErrNoEntry` with
the state untouched; otherwise the node is unlinked and re-added at the
head, the item's node pointer refreshed, and the internal `i.data` slice
reference returned. -/
def getOp (st : MemState) (key : Nat) (now : Int) : Except RtErr (GetRes × MemState) :=
  match mapFind st.data key with
  | none => .ok (.notFound, st)
  | some i =>
    if i.expires ≠ 0 ∧ i.expires < now then .ok (.notFound, st)
    else
      match (match i.alNode with
             | none => Except.error RtErr.nilDeref
             | some nid => alRemove st nid) with
      | .error e => .error e
      | .ok st₁ =>
        let st₂ := addToHead st₁ key
        let i' := { i with alNode := st₂.head }
        .ok (.found i.dataBuf, { st₂ with data := mapSet st₂.data key i' })

/-- Result of `Store.Set`: `ok` for a nil error, `entryIsTooBig` for
`httpcache.ErrEntryIsTooBig`. -/
inductive SetRes where
  | ok : SetRes
  | entryIsTooBig : SetRes
deriving DecidableEq, Repr

/-- Model of `Store.Set` of memory.go, statement by statement: compute
`bytesNeeded` (full size for a new key, delta against the old payload for
an override), reject if it exceeds total capacity, evict if it exceeds
free capacity, copy the input into a fresh buffer, bump `sizeBytes`,
unlink the old node if any, add a node at the head, set the expiry to
`now + ttl`, and write the item back into the map. -/
def setOp (st : MemState) (h : Heap) (key : Nat) (dataBuf : Option Nat) (ttl now : Int) :
    Except RtErr (SetRes × MemState × Heap) :=
  let dataLen : Int := (h.get dataBuf).length
  let (i, bytesNeeded) :=
    match mapFind st.data key with
    | some i => (i, dataLen - ((h.get i.dataBuf).length : Int))
    | none => (({ dataBuf := none, expires := 0, alNode := none } : Item), dataLen)
  if bytesNeeded > st.capacityBytes then .ok (.entryIsTooBig, st, h)
  else
    let leftBytes := st.capacityBytes - st.sizeBytes
    match (if bytesNeeded > leftBytes then evict st h (bytesNeeded - leftBytes) else .ok st) with
    | .error e => .error e
    | .ok st₁ =>
      let (h₁, newBuf) := h.alloc (h.get dataBuf)
      let i₁ := { i with dataBuf := some newBuf }
      let st₂ := { st₁ with sizeBytes := st₁.sizeBytes + bytesNeeded }
      match (match i₁.alNode with
             | none => Except.ok st₂
             | some nid => alRemove st₂ nid) with
      | .error e => .error e
      | .ok st₃ =>
        let st₄ := addToHead st₃ key
        let i₂ := { i₁ with expires := now + ttl, alNode := st₄.head }
        .ok (.ok, { st₄ with data := mapSet st₄.data key i₂ }, h₁)

/-- The resident-byte total the spec's invariant talks about: the sum of
the payload lengths of all keys currently present in the data map. -/
def residentBytes (st : MemState) (h : Heap) : Int :=
  st.data.foldr (fun p acc => ((h.get p.2.dataBuf).length : Int) + acc) 0

/-- Call `Set(k, bytes, ttl)` at instant `now` with a freshly allocated
caller-side slice holding `bytes` (how a Go caller passes a `[]byte`
literal). -/
def doSet (w : MemState × Heap) (k : Nat) (bytes : Buf) (ttl now : Int) :
    Except RtErr (SetRes × MemState × Heap) :=
  let (h, b) := w.2.alloc bytes
  setOp w.1 h k (some b) ttl now

/-- Fresh store of capacity 10 with an empty heap. -/
def w10 : MemState × Heap := (newStore 10, Heap.empty)

/-- The payload a `GetRes` denotes in heap `h` (empty for a miss). -/
def getPayload (h : Heap) (g : GetRes) : Buf :=
  match g with
  | .notFound => []
  | .found b => h.get b

/-!
### Concrete traces

The claims are settled on the spec's own scenario: capacity 10 bytes,
4-byte payloads, `ttl = 60`, `Set`s at `now = 0` and `Get`s at `now = 1`.
The intermediate states below are spelled out literally; the step
theorems later verify that each one is exactly what `setOp` / `getOp`
produces from its predecessor, so the conjunction of steps is the whole
sequence `Set(k1,4B); Set(k2,4B); …` run on the model.
-/

/-- State after `Set(k1, [1,1,1,1])` on the fresh capacity-10 store. -/
def stA1 : MemState :=
  { nextId := 1, nodes := [(0, { next := none, prev := none, key := 1 })],
    head := some 0, tail := some 0,
    data := [(1, { dataBuf := some 1, expires := 60, alNode := some 0 })],
    sizeBytes := 4, capacityBytes := 10 }

/-- Heap after `Set(k1, [1,1,1,1])`. -/
def hA1 : Heap := { nextBuf := 2, bufs := [(1, [1, 1, 1, 1]), (0, [1, 1, 1, 1])] }

/-- State after the further `Set(k2, [2,2,2,2])`. -/
def stA2 : MemState :=
  { nextId := 2,
    nodes := [(1, { next := some 0, prev := none, key := 2 }),
              (0, { next := none, prev := some 1, key := 1 })],
    head := some 1, tail := some 0,
    data := [(2, { dataBuf := some 3, expires := 60, alNode := some 1 }),
             (1, { dataBuf := some 1, expires := 60, alNode := some 0 })],
    sizeBytes := 8, capacityBytes := 10 }

/-- Heap after the further `Set(k2, [2,2,2,2])`. -/
def hA2 : Heap :=
  { nextBuf := 4,
    bufs := [(3, [2, 2, 2, 2]), (2, [2, 2, 2, 2]), (1, [1, 1, 1, 1]), (0, [1, 1, 1, 1])] }

/-- State after the further `Set(k3, [3,3,3,3])`: k1 was evicted, yet
`sizeBytes` grew to 12 — over the 8 bytes actually resident (k2, k3) and
over the capacity itself, because `evict` never subtracts the evicted
bytes. -/
def stA3 : MemState :=
  { nextId := 3,
    nodes := [(2, { next := some 1, prev := none, key := 3 }),
              (1, { next := none, prev := some 2, key := 2 }),
              (0, { next := none, prev := some 1, key := 1 })],
    head := some 2, tail := some 1,
    data := [(3, { dataBuf := some 5, expires := 60, alNode := some 2 }),
             (2, { dataBuf := some 3, expires := 60, alNode := some 1 })],
    sizeBytes := 12, capacityBytes := 10 }

/-- Heap after the further `Set(k3, [3,3,3,3])`. -/
def hA3 : Heap :=
  { nextBuf := 6,
    bufs := [(5, [3, 3, 3, 3]), (4, [3, 3, 3, 3]), (3, [2, 2, 2, 2]),
             (2, [2, 2, 2, 2]), (1, [1, 1, 1, 1]), (0, [1, 1, 1, 1])] }

/-- State after `Get(k2)` on `stA3` (k2 touched to the head). -/
def stB1 : MemState :=
  { nextId := 4,
    nodes := [(3, { next := some 2, prev := none, key := 2 }),
              (2, { next := none, prev := some 3, key := 3 }),
              (1, { next := none, prev := some 2, key := 2 }),
              (0, { next := none, prev := some 1, key := 1 })],
    head := some 3, tail := some 2,
    data := [(2, { dataBuf := some 3, expires := 60, alNode := some 3 }),
             (3, { dataBuf := some 5, expires := 60, alNode := some 2 })],
    sizeBytes := 12, capacityBytes := 10 }

/-- State after the further `Set(k4, [4,4,4,4])` on `stA3`: k2 and k3
both evicted (the phantom 12 bytes forced a 6-byte demand), only k4
resident, `sizeBytes` now 16. -/
def stA4 : MemState :=
  { nextId := 4,
    nodes := [(3, { next := none, prev := none, key := 4 }),
              (2, { next := none, prev := none, key := 3 }),
              (1, { next := none, prev := some 2, key := 2 }),
              (0, { next := none, prev := some 1, key := 1 })],
    head := some 3, tail := some 3,
    data := [(4, { dataBuf := some 7, expires := 60, alNode := some 3 })],
    sizeBytes := 16, capacityBytes := 10 }

/-- Heap after the further `Set(k4, [4,4,4,4])`. -/
def hA4 : Heap :=
  { nextBuf := 8,
    bufs := [(7, [4, 4, 4, 4]), (6, [4, 4, 4, 4]), (5, [3, 3, 3, 3]), (4, [3, 3, 3, 3]),
             (3, [2, 2, 2, 2]), (2, [2, 2, 2, 2]), (1, [1, 1, 1, 1]), (0, [1, 1, 1, 1])] }

/-- State after `Get(k1)` on `stA2` (k1 touched to the head, k2 now the
least recently used). -/
def stC1 : MemState :=
  { nextId := 3,
    nodes := [(2, { next := some 1, prev := none, key := 1 }),
              (1, { next := none, prev := some 2, key := 2 }),
              (0, { next := none, prev := some 1, key := 1 })],
    head := some 2, tail := some 1,
    data := [(1, { dataBuf := some 1, expires := 60, alNode := some 2 }),
             (2, { dataBuf := some 3, expires := 60, alNode := some 1 })],
    sizeBytes := 8, capacityBytes := 10 }

/-- State after the further `Set(k3, [3,3,3,3])` on `stC1`: k2 (the
least recently used after the touch) was evicted; k1 and k3 resident. -/
def stC2 : MemState :=
  { nextId := 4,
    nodes := [(3, { next := some 2, prev := none, key := 3 }),
              (2, { next := none, prev := some 3, key := 1 }),
              (1, { next := none, prev := some 2, key := 2 }),
              (0, { next := none, prev := some 1, key := 1 })],
    head := some 3, tail := some 2,
    data := [(3, { dataBuf := some 5, expires := 60, alNode := some 3 }),
             (1, { dataBuf := some 1, expires := 60, alNode := some 2 })],
    sizeBytes := 12, capacityBytes := 10 }

/-- Heap after the further `Set(k3, [3,3,3,3])` on `stC1`. -/
def hC2 : Heap := hA3

/-- State after `Get(k1)` on `stC2`. -/
def stC3 : MemState :=
  { nextId := 5,
    nodes := [(4, { next := some 3, prev := none, key := 1 }),
              (3, { next := none, prev := some 4, key := 3 }),
              (2, { next := none, prev := some 3, key := 1 }),
              (1, { next := none, prev := some 2, key := 2 }),
              (0, { next := none, prev := some 1, key := 1 })],
    head := some 4, tail := some 3,
    data := [(1, { dataBuf := some 1, expires := 60, alNode := some 4 }),
             (3, { dataBuf := some 5, expires := 60, alNode := some 3 })],
    sizeBytes := 12, capacityBytes := 10 }

/-- State after `Set(k1, [1,2])` on a fresh capacity-100 store (the
aliasing trace). -/
def stD1 : MemState :=
  { nextId := 1, nodes := [(0, { next := none, prev := none, key := 1 })],
    head := some 0, tail := some 0,
    data := [(1, { dataBuf := some 1, expires := 60, alNode := some 0 })],
    sizeBytes := 2, capacityBytes := 100 }

/-- Heap after `Set(k1, [1,2])` on the fresh capacity-100 store: buffer 0
is the caller's slice, buffer 1 the store's copy. -/
def hD1 : Heap := { nextBuf := 2, bufs := [(1, [1, 2]), (0, [1, 2])] }

/-- State after `Get(k1)` on `stD1`. -/
def stD2 : MemState :=
  { nextId := 2,
    nodes := [(1, { next := none, prev := none, key := 1 }),
              (0, { next := none, prev := none, key := 1 })],
    head := some 1, tail := some 1,
    data := [(1, { dataBuf := some 1, expires := 60, alNode := some 1 })],
    sizeBytes := 2, capacityBytes := 100 }

/-!
## The serialized cached response

`cachedResponse` of httpcache.go is
`{ StatusCode int; Body []byte; Header http.Header }`, serialized with
`encoding/gob`.  The model keeps the Go distinction between a nil and an
empty slice/map: `Body = none` is a nil `[]byte`, `some l` a non-nil
slice with contents `l`; `Header = none` is a nil map, `some entries` a
map whose entries (in iteration order) are `entries`.  Equality of the
Lean values is `reflect.DeepEqual`.

The blob model follows gob's documented struct encoding: fields are
transmitted in increasing field order, each introduced by its field tag,
and a field holding the zero value of its type (`0`, a slice of length 0,
a map of length 0) is omitted from the transmission; decoding starts from
the zero value of the struct and only assigns transmitted fields.  Scalar
payloads are written length-prefixed; Go's nondeterministic map iteration
order is fixed to the stored entry order (a deterministic stand-in).
-/

/-- Model of `cachedResponse` of httpcache.go. -/
structure cachedResponse where
  StatusCode : Int
  Body : Option (List Nat)
  Header : Option (List (String × List String))
deriving DecidableEq, Repr

/-- Base-256 little-endian digits, with structural fuel (any fuel ≥ the
value is enough, see `natDigitsAux_undigits`). -/
def natDigitsAux : Nat → Nat → List Nat
  | _, 0 => []
  | 0, _ + 1 => []
  | fuel + 1, n + 1 => ((n + 1) % 256) :: natDigitsAux fuel ((n + 1) / 256)

/-- Base-256 little-endian digits of `n` (empty for 0). -/
def natDigits (n : Nat) : List Nat :=
  natDigitsAux n n

/-- Value of a little-endian digit list. -/
def natUndigits : List Nat → Nat
  | [] => 0
  | d :: ds => d + 256 * natUndigits ds

/-- Length-prefixed encoding of an unsigned integer. -/
def encNat (n : Nat) : List Nat :=
  (natDigits n).length :: natDigits n

/-- Parse a length-prefixed unsigned integer off the front of a blob. -/
def decNat (bs : List Nat) : Option (Nat × List Nat) :=
  match bs with
  | [] => none
  | len :: rest =>
    if len ≤ rest.length then some (natUndigits (rest.take len), rest.drop len) else none

/-- Sign-and-magnitude encoding of an integer. -/
def encInt (i : Int) : List Nat :=
  (if i < 0 then 1 else 0) :: encNat i.natAbs

/-- Parse an integer off the front of a blob. -/
def decInt (bs : List Nat) : Option (Int × List Nat) :=
  match bs with
  | [] => none
  | s :: rest =>
    (decNat rest).bind (fun p =>
      if s = 0 then some ((p.1 : Int), p.2)
      else if s = 1 then some (-(p.1 : Int), p.2)
      else none)

/-- Count-prefixed encoding of a list of items. -/
def encListWith (f : α → List Nat) (l : List α) : List Nat :=
  encNat l.length ++ l.flatMap f

/-- Parse exactly `n` items off the front of a blob. -/
def decCount (f : List Nat → Option (α × List Nat)) : Nat → List Nat → Option (List α × List Nat)
  | 0, rest => some ([], rest)
  | n + 1, rest =>
    (f rest).bind (fun p => (decCount f n p.2).map (fun q => (p.1 :: q.1, q.2)))

/-- Parse a count-prefixed list off the front of a blob. -/
def decListWith (f : List Nat → Option (α × List Nat)) (bs : List Nat) :
    Option (List α × List Nat) :=
  (decNat bs).bind (fun p => decCount f p.1 p.2)

/-- Encode a string as its count-prefixed character scalar values. -/
def encStr (s : String) : List Nat :=
  encListWith (fun c => encNat c.toNat) s.data

/-- Parse a string off the front of a blob. -/
def decStr (bs : List Nat) : Option (String × List Nat) :=
  (decListWith (fun bs => (decNat bs).map (fun p => (Char.ofNat p.1, p.2))) bs).map
    (fun p => (String.mk p.1, p.2))

/-- Encode one header entry: the name and its ordered value list. -/
def encEntry (e : String × List String) : List Nat :=
  encStr e.1 ++ encListWith encStr e.2

/-- Parse one header entry off the front of a blob. -/
def decEntry (bs : List Nat) : Option ((String × List String) × List Nat) :=
  (decStr bs).bind (fun p => (decListWith decStr p.2).map (fun q => ((p.1, q.1), q.2)))

/-- gob encoding of a `cachedResponse` (see the section comment): field 1
(`StatusCode`), field 2 (`Body`), field 3 (`Header`), each omitted when it
holds its type's zero value. -/
def encodeGob (r : cachedResponse) : List Nat :=
  (if r.StatusCode = 0 then [] else 1 :: encInt r.StatusCode) ++
  (if (r.Body.getD []).isEmpty then [] else 2 :: encListWith encNat (r.Body.getD [])) ++
  (if (r.Header.getD []).isEmpty then [] else 3 :: encListWith encEntry (r.Header.getD []))

/-- Parse the optional field 1 (`StatusCode`); zero when absent. -/
def decField1 (bs : List Nat) : Option (Int × List Nat) :=
  match bs with
  | 1 :: rest => decInt rest
  | bs => some (0, bs)

/-- Parse the optional field 2 (`Body`); nil when absent. -/
def decField2 (bs : List Nat) : Option (Option (List Nat) × List Nat) :=
  match bs with
  | 2 :: rest => (decListWith decNat rest).map (fun p => (some p.1, p.2))
  | bs => some (none, bs)

/-- Parse the optional field 3 (`Header`); nil when absent. -/
def decField3 (bs : List Nat) : Option (Option (List (String × List String)) × List Nat) :=
  match bs with
  | 3 :: rest => (decListWith decEntry rest).map (fun p => (some p.1, p.2))
  | bs => some (none, bs)

/-- gob decoding of a `cachedResponse`: start from the zero value and
assign the transmitted fields; fail on trailing garbage. -/
def decodeGob (bs : List Nat) : Option cachedResponse :=
  (decField1 bs).bind (fun p =>
    (decField2 p.2).bind (fun q =>
      (decField3 q.2).bind (fun w =>
        if w.2 = [] then some ⟨p.1, q.1, w.1⟩ else none)))

/-- The value a `cachedResponse` decodes back to: gob's zero-value
omission turns a non-nil empty `Body`/`Header` into nil. -/
def canonR (r : cachedResponse) : cachedResponse :=
  ⟨r.StatusCode,
   if (r.Body.getD []).isEmpty then none else r.Body,
   if (r.Header.getD []).isEmpty then none else r.Header⟩

/-!
## The middleware (httpcache.go)

A URL is modelled as its non-query part (`path`, standing for
scheme/host/path, which `sortURLParams` leaves untouched) together with
the parsed query: the ordered list of `(name, value)` pairs that
`url.Values` iteration and `Query()` see.  `sortURLParams` sorts each
parameter's value list and re-encodes with `url.Values.Encode`, which
emits parameter names in sorted order; the model composes the two into
`canonicalQuery`.  Percent-escaping is omitted (parameters stand for
their decoded values).  The key is the FNV-1a 64-bit hash of the
canonical URL string's UTF-8 bytes, exactly as `fnvHashKeyGenerator`.
-/

/-- FNV-1a 64-bit parameters (hash/fnv). -/
def fnvPrime : Nat := 1099511628211

/-- FNV-1a 64-bit offset basis (hash/fnv). -/
def fnvOffset : Nat := 14695981039346656037

/-- FNV-1a 64-bit hash of a byte sequence, with 64-bit wraparound. -/
def fnv64a (bytes : List Nat) : Nat :=
  bytes.foldl (fun h b => ((h ^^^ b) * fnvPrime) % (2 ^ 64)) fnvOffset

/-- UTF-8 bytes of a string. -/
def strBytes (s : String) : List Nat :=
  s.toUTF8.toList.map (fun b => b.toNat)

/-- The values listed under name `n` in a parsed query, in order
(`url.Values[n]`). -/
def valuesOf (q : List (String × String)) (n : String) : List String :=
  (q.filter (fun p => p.1 == n)).map (fun p => p.2)

/-- Model of `sort.Slice(param, ...)` on a value list: sort lexicographically. -/
def sortStrings (l : List String) : List String :=
  l.insertionSort (· ≤ ·)

/-- The parameter names present in a query, sorted and without
duplicates (`url.Values.Encode` iterates names in sorted order). -/
def queryNames (q : List (String × String)) : List String :=
  ((q.map (fun p => p.1)).insertionSort (· ≤ ·)).dedup

/-- The canonical parameter list `sortURLParams` leaves in `RawQuery`:
names in sorted order, each name's values sorted. -/
def canonicalQuery (q : List (String × String)) : List (String × String) :=
  (queryNames q).flatMap (fun n => (sortStrings (valuesOf q n)).map (fun v => (n, v)))

/-- Model of `url.Values.Encode` on an ordered parameter list. -/
def encodeQueryString (q : List (String × String)) : String :=
  String.intercalate "&" (q.map (fun p => p.1 ++ "=" ++ p.2))

/-- Model of `URL.String()` after `sortURLParams`: the non-query part, then `?`
and the canonical query when the query is nonempty. -/
def urlString (path : String) (q : List (String × String)) : String :=
  if q.isEmpty then path else path ++ "?" ++ encodeQueryString q

/-- Model of `middleware.generateKey`: hash the canonicalized URL string. -/
def generateKey (path : String) (q : List (String × String)) : Nat :=
  fnv64a (strBytes (urlString path (canonicalQuery q)))

/-- An inbound request: method, the URL split as above, and whether the
configured bypass predicate holds for it (the predicate only inspects the
request, so its value is carried by the request model). -/
structure Request where
  method : String
  path : String
  query : List (String × String)
deriving DecidableEq, Repr

/-- Model of `middleware.isCacheable`: only GET requests are cacheable. -/
def isCacheable (r : Request) : Bool :=
  r.method == "GET"

/-- Middleware configuration: the ttl handed to `Store.Set` and the
bypass predicate. -/
structure Middleware where
  ttl : Int
  bypassCache : Request → Bool

/-- What the downstream handler commits through the response recorder:
the committed status code (200 if the handler only wrote a body), the
header snapshot, and the body bytes written. -/
structure DownResp where
  status : Int
  header : List (String × List String)
  body : List Nat
deriving DecidableEq, Repr

/-- Model of `newCachedResponse` on a recorder the downstream handler ran
through: `rec.body.Bytes()` is nil for an untouched buffer, and
`rec.Header()` is a non-nil (possibly empty) map. -/
def newCachedResponse (resp : DownResp) : cachedResponse :=
  ⟨resp.status, if resp.body.isEmpty then none else some resp.body, some resp.header⟩

/-- What was written to the real response sink by the end of the
request. -/
structure SinkState where
  status : Option Int
  header : List (String × List String)
  body : List Nat
deriving DecidableEq, Repr

/-- Outcome of one `ServeHTTP` call: the store state and heap afterwards,
the sink contents, and how often the store was consulted / written and
the downstream handler invoked (directly on the original sink, or through
a recorder). -/
structure ServeResult where
  st : MemState
  heap : Heap
  sink : SinkState
  storeGets : Nat
  storeSets : Nat
  downstreamDirect : Nat
  downstreamRecorded : Nat
deriving DecidableEq, Repr

/-- Model of `middleware.ServeHTTP` of httpcache.go over the memory store:
passthrough for non-GET or bypassed requests; otherwise look the key up —
on `ErrNoEntry` run the handler through a recorder and store the encoded
response unless the committed status is ≥ 400 (a `Set` failure only
reaches `onError`); on any other lookup/decode failure degrade to a
direct downstream call; on a hit replay the decoded response. -/
def serveHTTP (m : Middleware) (next : Request → DownResp) (r : Request)
    (st : MemState) (h : Heap) (now : Int) : Except RtErr ServeResult :=
  if !(isCacheable r) || m.bypassCache r then
    let resp := next r
    .ok ⟨st, h, ⟨some resp.status, resp.header, resp.body⟩, 0, 0, 1, 0⟩
  else
    let key := generateKey r.path r.query
    match getOp st key now with
    | .error e => .error e
    | .ok (.notFound, st₁) =>
      let resp := next r
      let sink : SinkState := ⟨some resp.status, resp.header, resp.body⟩
      if resp.status ≥ 400 then
        .ok ⟨st₁, h, sink, 1, 0, 0, 1⟩
      else
        let (h₁, b) := h.alloc (encodeGob (newCachedResponse resp))
        match setOp st₁ h₁ key (some b) m.ttl now with
        | .error e => .error e
        | .ok (_, st₂, h₂) => .ok ⟨st₂, h₂, sink, 1, 1, 0, 1⟩
    | .ok (.found buf, st₁) =>
      match decodeGob (h.get buf) with
      | none =>
        let resp := next r
        .ok ⟨st₁, h, ⟨some resp.status, resp.header, resp.body⟩, 1, 0, 1, 0⟩
      | some cr =>
        .ok ⟨st₁, h, ⟨some cr.StatusCode, cr.Header.getD [], cr.Body.getD []⟩, 1, 0, 0, 0⟩

/-- Model of `Options` of httpcache.go, restricted to the field `WithTTL`
touches. -/
structure MwOptions where
  ttl : Int
deriving DecidableEq, Repr

/-- The default ttl: 24 hours, in nanoseconds (`time.Duration` units). -/
def defaultTtl : Int := 24 * 60 * 60 * 1000000000

/-- Model of `WithTTL` of httpcache.go: rejected only when `ttl == 0`. -/
def withTTL (ttl : Int) (o : MwOptions) : Except String MwOptions :=
  if ttl = 0 then .error "ttl must be > 0" else .ok { o with ttl := ttl }

/-- The option-folding loop of `NewMiddleware`: apply each option to the
default configuration, failing on the first option error. -/
def newMiddlewareOptions (opts : List (MwOptions → Except String MwOptions)) :
    Except String MwOptions :=
  opts.foldlM (fun o f => f o) { ttl := defaultTtl }

/-- A one-entry capacity-10 store whose entry for key 1 expires at
instant 5 (used to exercise the lazy-expiry path at `now = 10`). -/
def stE : MemState :=
  { nextId := 1, nodes := [(0, { next := none, prev := none, key := 1 })],
    head := some 0, tail := some 0,
    data := [(1, { dataBuf := some 0, expires := 5, alNode := some 0 })],
    sizeBytes := 4, capacityBytes := 10 }

/-- A middleware configuration whose bypass predicate never fires
(`ttl = 60`). -/
def mwNoBypass : Middleware := { ttl := 60, bypassCache := fun _ => false }

/-- A downstream handler that always commits a 404 with body `[5]`. -/
def handler404 : Request → DownResp := fun _ => { status := 404, header := [], body := [5] }

/-- A downstream handler that always commits a 201 with body `[7]`. -/
def handler201 : Request → DownResp := fun _ => { status := 201, header := [], body := [7] }

/-- A GET request for `/x` with no query. -/
def reqGET : Request := { method := "GET", path := "/x", query := [] }

/-- A POST request for `/x` with no query. -/
def reqPOST : Request := { method := "POST", path := "/x", query := [] }

/-!
## Step lemmas: the concrete traces, one operation at a time

Each lemma verifies by evaluation that one `setOp`/`getOp` call maps the
stated literal state to the stated literal successor, so a chain of these
lemmas is a complete run of the corresponding Go call sequence.
-/

/-- Step: `Set(k1, [1,1,1,1])` on the fresh capacity-10 store. -/
theorem step_set1 : doSet w10 1 [1, 1, 1, 1] 60 0 = .ok (.ok, stA1, hA1) := by decide

/-- Step: `Set(k2, [2,2,2,2])` next. -/
theorem step_set2 : doSet (stA1, hA1) 2 [2, 2, 2, 2] 60 0 = .ok (.ok, stA2, hA2) := by decide

/-- Step: `Set(k3, [3,3,3,3])` next: evicts k1 but `sizeBytes` rises to 12. -/
theorem step_set3 : doSet (stA2, hA2) 3 [3, 3, 3, 3] 60 0 = .ok (.ok, stA3, hA3) := by decide

/-- Step: `Get(k1)` after the three sets: `ErrNoEntry`, state untouched. -/
theorem step_getA1 : getOp stA3 1 1 = .ok (.notFound, stA3) := by decide

/-- Step: `Get(k2)` after the three sets: returns k2's payload buffer. -/
theorem step_getA2 : getOp stA3 2 1 = .ok (.found (some 3), stB1) := by decide

/-- Step: `Get(k3)` next: returns k3's payload buffer. -/
theorem step_getA3 : (getOp stB1 3 1).map (fun p => p.1) = .ok (.found (some 5)) := by decide

/-- Step: `Set(k4, [4,4,4,4])` on `stA3`: the phantom bytes force k2 and k3
out. -/
theorem step_set4 : doSet (stA3, hA3) 4 [4, 4, 4, 4] 60 0 = .ok (.ok, stA4, hA4) := by decide

/-- Step: `Set(k5, [5,5,5,5])` on `stA4`: the eviction loop exhausts the
access list and hits the `panic("no more items in the access list")`. -/
theorem step_set5 : doSet (stA4, hA4) 5 [5, 5, 5, 5] 60 0 =
    .error (.panicMsg "no more items in the access list") := by decide

/-- Step: `Get(k1)` on `stA2` (the touch of scenario B). -/
theorem step_getB1 : getOp stA2 1 1 = .ok (.found (some 1), stC1) := by decide

/-- Step: `Set(k3, [3,3,3,3])` after the touch: k2 is evicted instead. -/
theorem step_set3B : doSet (stC1, hA2) 3 [3, 3, 3, 3] 60 0 = .ok (.ok, stC2, hC2) := by decide

/-- Step: `Get(k2)` on `stC2`: `ErrNoEntry`, state untouched. -/
theorem step_getB2 : getOp stC2 2 1 = .ok (.notFound, stC2) := by decide

/-- Step: `Get(k1)` on `stC2`: still resident. -/
theorem step_getB3 : getOp stC2 1 1 = .ok (.found (some 1), stC3) := by decide

/-- Step: `Get(k3)` on `stC3`: still resident. -/
theorem step_getB4 : (getOp stC3 3 1).map (fun p => p.1) = .ok (.found (some 5)) := by decide

/-- Step: `Set(k1, [9,…,9])` (8 bytes) on `stA2`: k1 is resident and the LRU
victim; the eviction pops k1's own node and the subsequent
`s.al.remove(i.alNode)` dereferences the stale node's nil `next`. -/
theorem step_selfEvict : doSet (stA2, hA2) 1 [9, 9, 9, 9, 9, 9, 9, 9] 60 0 =
    .error .nilDeref := by decide

/-- Step: `Set(k1, [1,2])` on a fresh capacity-100 store. -/
theorem step_setD1 : doSet (newStore 100, Heap.empty) 1 [1, 2] 60 0 =
    .ok (.ok, stD1, hD1) := by decide

/-- Step: `Get(k1)` on `stD1` returns the store's own buffer 1, not a copy. -/
theorem step_getD1 : getOp stD1 1 1 = .ok (.found (some 1), stD2) := by decide

/-- Step: `Get(k1)` on `stD2` again: the same buffer 1 is returned. -/
theorem step_getD2 : (getOp stD2 1 1).map (fun p => p.1) = .ok (.found (some 1)) := by decide

/-!
## The claims
-/

/-- C1: the resident-byte invariant `sizeBytes = Σ len(payload)` over the
data map is violated by the code: after `Set(k1,4B); Set(k2,4B);
Set(k3,4B)` on a capacity-10 store, the eviction of k1 leaves
`sizeBytes = 12` while the resident payloads sum to 8 — `evict` deletes
entries without decrementing `sizeBytes`.  Continuing with `Set(k4,4B);
Set(k5,4B)` even reaches the `panic("no more items in the access list")`
that the code's own comment says should never happen. -/
theorem C1_sizeBytes_invariant_violated :
    doSet w10 1 [1, 1, 1, 1] 60 0 = .ok (.ok, stA1, hA1) ∧
    doSet (stA1, hA1) 2 [2, 2, 2, 2] 60 0 = .ok (.ok, stA2, hA2) ∧
    doSet (stA2, hA2) 3 [3, 3, 3, 3] 60 0 = .ok (.ok, stA3, hA3) ∧
    stA3.sizeBytes = 12 ∧ residentBytes stA3 hA3 = 8 ∧
    doSet (stA3, hA3) 4 [4, 4, 4, 4] 60 0 = .ok (.ok, stA4, hA4) ∧
    doSet (stA4, hA4) 5 [5, 5, 5, 5] 60 0 =
      .error (.panicMsg "no more items in the access list") :=
  ⟨step_set1, step_set2, step_set3, by decide, by decide, step_set4, step_set5⟩

/-- C2: `Set` on a key that is resident and the least-recently-used entry,
needing eviction, does NOT complete normally: on the capacity-10 store
holding k1 (4B, LRU) and k2 (4B), `Set(k1, 8B)` — size increase 4 ≤
capacity 10 but > the 2 free bytes — evicts k1's own node from the tail
and then calls `s.al.remove` on the stale node, dereferencing its nil
`next` pointer: a nil-pointer panic.  The conjuncts pin the premises:
k1 is resident with a 4-byte payload and its node 0 is the tail. -/
theorem C2_set_on_lru_self_nil_panic :
    doSet w10 1 [1, 1, 1, 1] 60 0 = .ok (.ok, stA1, hA1) ∧
    doSet (stA1, hA1) 2 [2, 2, 2, 2] 60 0 = .ok (.ok, stA2, hA2) ∧
    mapFind stA2.data 1 = some { dataBuf := some 1, expires := 60, alNode := some 0 } ∧
    stA2.tail = some 0 ∧ (aFind stA2.nodes 0).map (fun n => n.key) = some 1 ∧
    hA2.get (some 1) = [1, 1, 1, 1] ∧
    doSet (stA2, hA2) 1 [9, 9, 9, 9, 9, 9, 9, 9] 60 0 = .error .nilDeref :=
  ⟨step_set1, step_set2, by decide, by decide, by decide, by decide, step_selfEvict⟩

/-- C3, counterexample: the slice `Get` returns is the store's internal
buffer, not a copy.  After `Set(k1, [1,2])`, `Get(k1)` returns buffer 1
holding `[1,2]`; overwriting that very buffer with `[9,9]` makes the next
`Get(k1)` return `[9,9]` — mutating the slice returned by `Get` does
change the payload returned by a later `Get`. -/
theorem C3_get_alias_counterexample :
    doSet (newStore 100, Heap.empty) 1 [1, 2] 60 0 = .ok (.ok, stD1, hD1) ∧
    getOp stD1 1 1 = .ok (.found (some 1), stD2) ∧
    hD1.get (some 1) = [1, 2] ∧
    (getOp stD2 1 1).map (fun p => p.1) = .ok (.found (some 1)) ∧
    (hD1.write 1 [9, 9]).get (some 1) = [9, 9] ∧ [9, 9] ≠ [1, 2] :=
  ⟨step_setD1, step_getD1, by decide, step_getD2, by decide, by decide⟩

/-- C6: the spec's two eviction scenarios on a capacity-10 store.
(a) `Set(k1,4B); Set(k2,4B); Set(k3,4B)` → `Get(k1)` is NotFound while
`Get(k2)` and `Get(k3)` return their payloads; (b) with `Get(k1)`
performed before inserting k3, `Get(k2)` is NotFound instead while
`Get(k1)` and `Get(k3)` return their payloads — the eviction victim is
the least-recently-used key and a successful `Get` moves its key to the
most-recently-used position (visible in `stC1.head`, the node added for
k1 by the touch). -/
theorem C6_lru_eviction_scenarios :
    (doSet w10 1 [1, 1, 1, 1] 60 0 = .ok (.ok, stA1, hA1) ∧
     doSet (stA1, hA1) 2 [2, 2, 2, 2] 60 0 = .ok (.ok, stA2, hA2) ∧
     doSet (stA2, hA2) 3 [3, 3, 3, 3] 60 0 = .ok (.ok, stA3, hA3) ∧
     getOp stA3 1 1 = .ok (.notFound, stA3) ∧
     getOp stA3 2 1 = .ok (.found (some 3), stB1) ∧ hA3.get (some 3) = [2, 2, 2, 2] ∧
     (getOp stB1 3 1).map (fun p => p.1) = .ok (.found (some 5)) ∧
     hA3.get (some 5) = [3, 3, 3, 3]) ∧
    (getOp stA2 1 1 = .ok (.found (some 1), stC1) ∧
     (aFind stC1.nodes 2).map (fun n => n.key) = some 1 ∧ stC1.head = some 2 ∧
     doSet (stC1, hA2) 3 [3, 3, 3, 3] 60 0 = .ok (.ok, stC2, hC2) ∧
     getOp stC2 2 1 = .ok (.notFound, stC2) ∧
     getOp stC2 1 1 = .ok (.found (some 1), stC3) ∧ hC2.get (some 1) = [1, 1, 1, 1] ∧
     (getOp stC3 3 1).map (fun p => p.1) = .ok (.found (some 5)) ∧
     hC2.get (some 5) = [3, 3, 3, 3]) :=
  ⟨⟨step_set1, step_set2, step_set3, step_getA1, step_getA2, by decide, step_getA3,
    by decide⟩,
   ⟨step_getB1, by decide, by decide, step_set3B, step_getB2, step_getB3, by decide,
    step_getB4, by decide⟩⟩

/-- C4: `WithTTL` does not reject every non-positive duration: it rejects
exactly `ttl == 0` — `NewMiddleware` with `WithTTL(-1)` succeeds and sets
the configured ttl to −1, although the option's own error message reads
"ttl must be > 0".  For strictly positive `d` construction succeeds with
ttl `d`, as the claim says. -/
theorem C4_withTTL_accepts_negative :
    newMiddlewareOptions [withTTL (-1)] = .ok { ttl := -1 } ∧
    newMiddlewareOptions [withTTL 0] = .error "ttl must be > 0" ∧
    (∀ d : Int, 0 < d → newMiddlewareOptions [withTTL d] = .ok { ttl := d }) := by
  refine ⟨by decide, by decide, fun d hd => ?_⟩
  simp only [newMiddlewareOptions, List.foldlM_cons, List.foldlM_nil, withTTL]
  rw [if_neg (by omega)]
  rfl

/-- C4 witness: the positive branch of `C4_withTTL_accepts_negative`
instantiated at `d = 5`. -/
theorem C4_withTTL_witness :
    (0 : Int) < 5 ∧ newMiddlewareOptions [withTTL 5] = .ok { ttl := 5 } :=
  ⟨by norm_num, C4_withTTL_accepts_negative.2.2 5 (by norm_num)⟩

/-- C7: `Get` of a present-but-expired entry (nonzero expiry strictly
before `now`) returns `ErrNoEntry` and leaves the store state completely
unchanged — the entry stays in the map, `sizeBytes` keeps counting it,
and the access list (hence the recency order) is untouched, because the
expiry check returns before any mutation. -/
theorem C7_expired_get_state_unchanged
    (st : MemState) (key : Nat) (now : Int) (i : Item)
    (hfind : mapFind st.data key = some i)
    (hnz : i.expires ≠ 0) (hexp : i.expires < now) :
    getOp st key now = .ok (.notFound, st) := by
  simp only [getOp, hfind]
  rw [if_pos ⟨hnz, hexp⟩]

/-- C7 witness: `C7_expired_get_state_unchanged` on the concrete store
`stE` (entry for key 1 expired at 5) read at `now = 10`. -/
theorem C7_expired_get_witness :
    (mapFind stE.data 1 = some { dataBuf := some 0, expires := 5, alNode := some 0 } ∧
     (5 : Int) ≠ 0 ∧ (5 : Int) < 10) ∧
    getOp stE 1 10 = .ok (.notFound, stE) :=
  ⟨⟨by decide, by decide, by decide⟩,
   C7_expired_get_state_unchanged stE 1 10
     { dataBuf := some 0, expires := 5, alNode := some 0 } (by decide) (by decide) (by decide)⟩

/-- A `Get` that misses (either branch: absent key or lazy expiry)
returns the state it was given, unchanged. -/
theorem getOp_notFound_state (st : MemState) (key : Nat) (now : Int) (st' : MemState)
    (hmiss : getOp st key now = .ok (.notFound, st')) : st' = st := by
  unfold getOp at hmiss
  cases hfind : mapFind st.data key with
  | none =>
    rw [hfind] at hmiss
    simp only [Except.ok.injEq, Prod.mk.injEq, true_and] at hmiss
    exact hmiss.symm
  | some i =>
    rw [hfind] at hmiss
    simp only [] at hmiss
    split at hmiss
    · simp only [Except.ok.injEq, Prod.mk.injEq, true_and] at hmiss
      exact hmiss.symm
    · split at hmiss
      · exact absurd hmiss (by simp)
      · simp at hmiss

/-- C10: a request that is not a GET, or that the bypass predicate
accepts, is served by calling the downstream handler directly on the
original sink: the store is never consulted (`storeGets = storeSets = 0`)
and the store state and heap are untouched. -/
theorem C10_passthrough_no_store
    (m : Middleware) (next : Request → DownResp) (r : Request)
    (st : MemState) (h : Heap) (now : Int)
    (hby : isCacheable r = false ∨ m.bypassCache r = true) :
    serveHTTP m next r st h now =
      .ok { st := st, heap := h
            sink := { status := some (next r).status, header := (next r).header
                      body := (next r).body }
            storeGets := 0, storeSets := 0, downstreamDirect := 1, downstreamRecorded := 0 } := by
  have hcond : (!(isCacheable r) || m.bypassCache r) = true := by
    rcases hby with hb | hb <;> simp [hb]
  unfold serveHTTP
  rw [if_pos hcond]

/-- A digit list produced with enough fuel evaluates back to its input. -/
theorem natDigitsAux_undigits : ∀ (fuel n : Nat), n ≤ fuel →
    natUndigits (natDigitsAux fuel n) = n
  | fuel, 0, _ => by cases fuel <;> rfl
  | 0, n + 1, h => absurd h (by omega)
  | fuel + 1, n + 1, _ => by
    have hd : (n + 1) / 256 ≤ fuel := by
      have := Nat.div_lt_self (Nat.succ_pos n) (by decide : 1 < 256)
      omega
    simp only [natDigitsAux, natUndigits]
    rw [natDigitsAux_undigits fuel ((n + 1) / 256) hd]
    omega

/-- The function `natUndigits` is a left inverse of `natDigits`. -/
theorem natUndigits_natDigits (n : Nat) : natUndigits (natDigits n) = n :=
  natDigitsAux_undigits n n (Nat.le_refl n)

/-- Parsing an encoded unsigned integer returns it and the tail. -/
theorem decNat_encNat (n : Nat) (rest : List Nat) : decNat (encNat n ++ rest) = some (n, rest) := by
  simp only [encNat, decNat, List.cons_append]
  rw [if_pos (by simp), List.take_left, List.drop_left, natUndigits_natDigits]

/-- Parsing an encoded integer returns it and the tail. -/
theorem decInt_encInt (i : Int) (rest : List Nat) : decInt (encInt i ++ rest) = some (i, rest) := by
  by_cases hi : i < 0
  · simp [encInt, hi, decInt, List.cons_append, decNat_encNat]
    rw [abs_of_neg hi]
    omega
  · have h2 : ((i.natAbs : Int)) = i := by omega
    simp [encInt, hi, decInt, List.cons_append, decNat_encNat, h2]

/-- Parsing a counted run of items off their concatenated encodings
returns them and the tail, given a round-tripping item parser. -/
theorem decCount_flatMap {α : Type} (f : List Nat → Option (α × List Nat)) (enc : α → List Nat)
    (hf : ∀ (a : α) (rest : List Nat), f (enc a ++ rest) = some (a, rest)) :
    ∀ (l : List α) (rest : List Nat), decCount f l.length (l.flatMap enc ++ rest) = some (l, rest)
  | [], rest => by simp [decCount]
  | a :: l, rest => by
    simp only [List.flatMap_cons, List.length_cons, decCount, List.append_assoc, hf,
      Option.some_bind]
    rw [decCount_flatMap f enc hf l rest]
    rfl

/-- Parsing an encoded list returns it and the tail. -/
theorem decListWith_encListWith {α : Type} (f : List Nat → Option (α × List Nat))
    (enc : α → List Nat) (hf : ∀ (a : α) (rest : List Nat), f (enc a ++ rest) = some (a, rest))
    (l : List α) (rest : List Nat) : decListWith f (encListWith enc l ++ rest) = some (l, rest) := by
  simp only [encListWith, decListWith, List.append_assoc, decNat_encNat, Option.some_bind]
  exact decCount_flatMap f enc hf l rest

/-- Parsing an encoded string returns it and the tail. -/
theorem decStr_encStr (s : String) (rest : List Nat) : decStr (encStr s ++ rest) = some (s, rest) := by
  unfold decStr encStr
  rw [decListWith_encListWith _ _ (fun c r => by simp [decNat_encNat]) s.data rest]
  cases s
  rfl

/-- Parsing an encoded header entry returns it and the tail. -/
theorem decEntry_encEntry (e : String × List String) (rest : List Nat) :
    decEntry (encEntry e ++ rest) = some (e, rest) := by
  unfold decEntry encEntry
  rw [List.append_assoc, decStr_encStr]
  simp only [Option.some_bind]
  rw [decListWith_encListWith _ _ decStr_encStr e.2 rest]
  simp

/-- Parsing an encoded list standing at the end of a blob. -/
theorem decListWith_encListWith_nil {α : Type} (f : List Nat → Option (α × List Nat))
    (enc : α → List Nat) (hf : ∀ (a : α) (rest : List Nat), f (enc a ++ rest) = some (a, rest))
    (l : List α) : decListWith f (encListWith enc l) = some (l, []) := by
  have h := decListWith_encListWith f enc hf l []
  rwa [List.append_nil] at h

/-- Parsing an encoded integer standing at the end of a blob. -/
theorem decInt_encInt_nil (i : Int) : decInt (encInt i) = some (i, []) := by
  have h := decInt_encInt i []
  rwa [List.append_nil] at h

/-- The field parser `decField1` on a blob not starting with tag 1 leaves it alone. -/
theorem decField1_nil : decField1 [] = some (0, []) := rfl

/-- The field parser `decField1` skips a blob starting with tag 2. -/
theorem decField1_two (t : List Nat) : decField1 (2 :: t) = some (0, 2 :: t) := rfl

/-- The field parser `decField1` skips a blob starting with tag 3. -/
theorem decField1_three (t : List Nat) : decField1 (3 :: t) = some (0, 3 :: t) := rfl

/-- The field parser `decField1` on tag 1 parses the status code. -/
theorem decField1_one (t : List Nat) : decField1 (1 :: t) = decInt t := rfl

/-- The field parser `decField2` on the empty blob reports a nil body. -/
theorem decField2_nil : decField2 [] = some (none, []) := rfl

/-- The field parser `decField2` skips a blob starting with tag 3. -/
theorem decField2_three (t : List Nat) : decField2 (3 :: t) = some (none, 3 :: t) := rfl

/-- The field parser `decField2` on tag 2 parses the body. -/
theorem decField2_two (t : List Nat) :
    decField2 (2 :: t) = (decListWith decNat t).map (fun p => (some p.1, p.2)) := rfl

/-- The field parser `decField3` on the empty blob reports a nil header map. -/
theorem decField3_nil : decField3 [] = some (none, []) := rfl

/-- The field parser `decField3` on tag 3 parses the header entries. -/
theorem decField3_three (t : List Nat) :
    decField3 (3 :: t) = (decListWith decEntry t).map (fun p => (some p.1, p.2)) := rfl

/-- Decoding the encoding of any `cachedResponse` yields its canonical
form: the same value except that zero-length `Body`/`Header` come back
nil, exactly gob's zero-value omission. -/
theorem decodeGob_encodeGob (r : cachedResponse) : decodeGob (encodeGob r) = some (canonR r) := by
  obtain ⟨sc, body?, hdr?⟩ := r
  by_cases hsc : sc = 0 <;>
    rcases body? with _ | ⟨_ | ⟨b, body⟩⟩ <;>
    rcases hdr? with _ | ⟨_ | ⟨e, hdr⟩⟩ <;>
    simp [encodeGob, decodeGob, canonR, hsc, decField1_nil, decField1_two, decField1_three,
      decField1_one, decField2_nil, decField2_three, decField2_two, decField3_nil,
      decField3_three, decInt_encInt, decInt_encInt_nil, List.cons_append, List.append_assoc,
      decListWith_encListWith decNat encNat decNat_encNat,
      decListWith_encListWith decEntry encEntry decEntry_encEntry,
      decListWith_encListWith_nil decNat encNat decNat_encNat,
      decListWith_encListWith_nil decEntry encEntry decEntry_encEntry]

/-- The map `canonR` is the identity on values whose zero-length fields are
already nil. -/
theorem canonR_eq_self (r : cachedResponse) (hb : r.Body ≠ some []) (hh : r.Header ≠ some []) :
    canonR r = r := by
  obtain ⟨sc, body?, hdr?⟩ := r
  rcases body? with _ | ⟨_ | ⟨b, body⟩⟩ <;> rcases hdr? with _ | ⟨_ | ⟨e, hdr⟩⟩ <;>
    simp_all [canonR]

/-- The encoder cannot distinguish a value from its canonical form: both
omit exactly the same fields. -/
theorem encodeGob_canonR (r : cachedResponse) : encodeGob (canonR r) = encodeGob r := by
  obtain ⟨sc, body?, hdr?⟩ := r
  rcases body? with _ | ⟨_ | ⟨b, body⟩⟩ <;> rcases hdr? with _ | ⟨_ | ⟨e, hdr⟩⟩ <;>
    simp [canonR, encodeGob]

/-- C5, counterexample: the gob round-trip law fails on a
`cachedResponse` with a non-nil empty body and non-nil empty header map —
gob omits zero-valued fields, so both decode back as nil, and the result
is not (`reflect.DeepEqual`-)equal to the original. -/
theorem C5_gob_roundtrip_counterexample :
    decodeGob (encodeGob { StatusCode := 200, Body := some [], Header := some [] }) =
      some { StatusCode := 200, Body := none, Header := none } ∧
    ({ StatusCode := 200, Body := none, Header := none } : cachedResponse) ≠
      { StatusCode := 200, Body := some [], Header := some [] } :=
  ⟨by decide, by decide⟩

/-- C5, amended: `decode(encode(r)) = r` holds for every `cachedResponse`
whose zero-length `Body`/`Header` are nil (in general decoding the
encoding yields `canonR r`), and `encode(decode(b)) = b` holds for every
blob `b` the encoder produces. -/
theorem C5_gob_roundtrip_amended :
    (∀ r : cachedResponse, r.Body ≠ some [] → r.Header ≠ some [] →
      decodeGob (encodeGob r) = some r) ∧
    (∀ r : cachedResponse, (decodeGob (encodeGob r)).map encodeGob = some (encodeGob r)) := by
  constructor
  · intro r hb hh
    rw [decodeGob_encodeGob, canonR_eq_self r hb hh]
  · intro r
    rw [decodeGob_encodeGob]
    simp [encodeGob_canonR]

/-- C5 witness: `C5_gob_roundtrip_amended` on a response with status 201,
binary body bytes, and a header name carrying two values in order. -/
theorem C5_gob_roundtrip_witness :
    ((some [0, 255] : Option (List Nat)) ≠ some [] ∧
     (some [("Set-Cookie", ["b", "a"])] : Option (List (String × List String))) ≠ some []) ∧
    decodeGob (encodeGob { StatusCode := 201, Body := some [0, 255]
                           Header := some [("Set-Cookie", ["b", "a"])] }) =
      some { StatusCode := 201, Body := some [0, 255]
             Header := some [("Set-Cookie", ["b", "a"])] } :=
  ⟨⟨by decide, by decide⟩, C5_gob_roundtrip_amended.1 _ (by decide) (by decide)⟩

/-- Looking up the key just written by a Go map assignment returns the
assigned item. -/
theorem mapFind_mapSet_self (m : List (Nat × Item)) (k : Nat) (v : Item) :
    mapFind (mapSet m k v) k = some v := by
  simp [mapFind, mapSet, List.find?]

/-- Writing through a pre-existing buffer reference never reaches a
freshly allocated buffer: reading the fresh buffer still returns the
allocated contents. -/
theorem heap_get_write_alloc (h : Heap) (content c : Buf) (bid : Nat) (hne : bid ≠ h.nextBuf) :
    (((h.alloc content).1).write bid c).get (some h.nextBuf) = content := by
  simp [Heap.alloc, Heap.write, Heap.get, List.find?, Ne.symm hne]

/-- C3, amended: the payload handed to `Set` is copied into a buffer the
caller cannot reach — after a successful `Set(key, d)`, whatever is
written through `d`'s buffer (or any other pre-existing buffer), the
payload recorded for `key` still reads as the bytes `d` held at `Set`
time.  `Get`, by contrast, returns the internal buffer itself: in the
concrete trace, overwriting the buffer `Get(k1)` returned makes the
store's payload for k1 read as the new bytes. -/
theorem C3_set_copies_get_aliases :
    (∀ (st : MemState) (h : Heap) (key bid : Nat) (ttl now : Int)
       (st' : MemState) (h' : Heap) (i : Item) (c : Buf),
       bid < h.nextBuf →
       setOp st h key (some bid) ttl now = .ok (.ok, st', h') →
       mapFind st'.data key = some i →
       (h'.write bid c).get i.dataBuf = h.get (some bid)) ∧
    (hD1.write 1 [9, 9]).get (some 1) = [9, 9] := by
  refine ⟨?_, by decide⟩
  intro st h key bid ttl now st' h' i c hlt hset hfind
  have hne : bid ≠ h.nextBuf := by omega
  simp only [setOp] at hset
  split at hset
  · exact absurd hset (by simp)
  · split at hset
    · exact absurd hset (by simp)
    · split at hset
      · exact absurd hset (by simp)
      · simp only [Except.ok.injEq, Prod.mk.injEq] at hset
        obtain ⟨-, hst', hh'⟩ := hset
        subst hst' hh'
        rw [mapFind_mapSet_self] at hfind
        obtain rfl := Option.some.inj hfind
        exact heap_get_write_alloc h (h.get (some bid)) c bid hne

/-- C3 witness: the copying half of `C3_set_copies_get_aliases` on the
concrete trace — `Set(k1, [1,2])` through buffer 0, then buffer 0 is
overwritten with `[7,7]`, yet the payload recorded for k1 (buffer 1)
still reads `[1,2]`. -/
theorem C3_set_copies_witness :
    ((0 : Nat) < (Heap.mk 1 [(0, [1, 2])]).nextBuf ∧
     setOp (newStore 100) (Heap.mk 1 [(0, [1, 2])]) 1 (some 0) 60 0 = .ok (.ok, stD1, hD1) ∧
     mapFind stD1.data 1 = some { dataBuf := some 1, expires := 60, alNode := some 0 }) ∧
    (hD1.write 0 [7, 7]).get (some 1) = (Heap.mk 1 [(0, [1, 2])]).get (some 0) :=
  ⟨⟨by decide, by decide, by decide⟩,
   C3_set_copies_get_aliases.1 (newStore 100) (Heap.mk 1 [(0, [1, 2])]) 1 0 60 0 stD1 hD1
     { dataBuf := some 1, expires := 60, alNode := some 0 } [7, 7]
     (by decide) (by decide) (by decide)⟩

/-- Sorting strings is invariant under permutation of the input. -/
theorem sortStrings_perm_congr {l₁ l₂ : List String} (hp : l₁.Perm l₂) :
    sortStrings l₁ = sortStrings l₂ :=
  List.eq_of_perm_of_sorted
    ((List.perm_insertionSort _ _).trans (hp.trans (List.perm_insertionSort _ _).symm))
    (List.sorted_insertionSort _ _) (List.sorted_insertionSort _ _)

/-- Two queries that are permutations of each other list the same values
(up to order) under every parameter name. -/
theorem valuesOf_perm {q₁ q₂ : List (String × String)} (hp : q₁.Perm q₂) (n : String) :
    (valuesOf q₁ n).Perm (valuesOf q₂ n) :=
  (hp.filter _).map _

/-- Two queries that are permutations of each other produce the same
sorted, deduplicated name list. -/
theorem queryNames_perm_congr {q₁ q₂ : List (String × String)} (hp : q₁.Perm q₂) :
    queryNames q₁ = queryNames q₂ := by
  unfold queryNames
  rw [show (q₁.map (fun p => p.1)).insertionSort (· ≤ ·) =
        (q₂.map (fun p => p.1)).insertionSort (· ≤ ·) from
      sortStrings_perm_congr (hp.map _)]

/-- Two queries that are permutations of each other canonicalize to the
same parameter list. -/
theorem canonicalQuery_perm_congr {q₁ q₂ : List (String × String)} (hp : q₁.Perm q₂) :
    canonicalQuery q₁ = canonicalQuery q₂ := by
  unfold canonicalQuery
  rw [queryNames_perm_congr hp]
  exact congrArg _ (funext fun n => by rw [sortStrings_perm_congr (valuesOf_perm hp n)])

/-- C9: two URLs that differ only in the ordering of their query
parameters — parameter name order and/or the order of a repeated
parameter's values, i.e. the `(name, value)` pair lists are permutations
of each other — generate the same 64-bit cache key; and the key is, by
construction, the deterministic FNV-1a-64 hash of the canonicalized URL
string. -/
theorem C9_key_order_independent :
    (∀ (path : String) (q₁ q₂ : List (String × String)), q₁.Perm q₂ →
      generateKey path q₁ = generateKey path q₂) ∧
    (∀ (path : String) (q : List (String × String)),
      generateKey path q = fnv64a (strBytes (urlString path (canonicalQuery q)))) := by
  refine ⟨fun path q₁ q₂ hp => ?_, fun path q => rfl⟩
  unfold generateKey
  rw [canonicalQuery_perm_congr hp]

/-- C9 witness: `C9_key_order_independent` on `/s?b=2&a=1&a=3` versus
`/s?a=3&a=1&b=2`. -/
theorem C9_key_order_witness :
    ([("b", "2"), ("a", "1"), ("a", "3")] : List (String × String)).Perm
      [("a", "3"), ("a", "1"), ("b", "2")] ∧
    generateKey "/s" [("b", "2"), ("a", "1"), ("a", "3")] =
      generateKey "/s" [("a", "3"), ("a", "1"), ("b", "2")] :=
  ⟨by decide,
   C9_key_order_independent.1 "/s" [("b", "2"), ("a", "1"), ("a", "3")]
     [("a", "3"), ("a", "1"), ("b", "2")] (by decide)⟩

/-- C8: on a cache miss whose downstream handler commits a status ≥ 400,
`ServeHTTP` never writes to the store: `storeSets = 0`, the store state
and heap come out exactly as they went in, and the lookup of the same key
on the resulting state still misses, so an immediately repeated identical
request misses again. -/
theorem C8_error_status_not_cached
    (m : Middleware) (next : Request → DownResp) (r : Request)
    (st st₁ : MemState) (h : Heap) (now : Int)
    (hc : isCacheable r = true) (hb : m.bypassCache r = false)
    (hmiss : getOp st (generateKey r.path r.query) now = .ok (.notFound, st₁))
    (hstat : (next r).status ≥ 400) :
    serveHTTP m next r st h now =
      .ok { st := st, heap := h
            sink := { status := some (next r).status, header := (next r).header
                      body := (next r).body }
            storeGets := 1, storeSets := 0, downstreamDirect := 0, downstreamRecorded := 1 } ∧
    getOp st (generateKey r.path r.query) now = .ok (.notFound, st) := by
  have hst := getOp_notFound_state _ _ _ _ hmiss
  subst hst
  refine ⟨?_, hmiss⟩
  unfold serveHTTP
  rw [if_neg (by simp [hc, hb])]
  simp only [hmiss]
  rw [if_pos hstat]

/-- C8 witness: `C8_error_status_not_cached` on the GET request, the
404 handler, and the fresh capacity-10 store with the empty heap. -/
theorem C8_error_status_witness :
    (isCacheable reqGET = true ∧ mwNoBypass.bypassCache reqGET = false ∧
     getOp (newStore 10) (generateKey reqGET.path reqGET.query) 0 =
       .ok (.notFound, newStore 10) ∧
     (handler404 reqGET).status ≥ 400) ∧
    serveHTTP mwNoBypass handler404 reqGET (newStore 10) Heap.empty 0 =
      .ok { st := newStore 10, heap := Heap.empty
            sink := { status := some (handler404 reqGET).status
                      header := (handler404 reqGET).header
                      body := (handler404 reqGET).body }
            storeGets := 1, storeSets := 0, downstreamDirect := 0, downstreamRecorded := 1 } :=
  ⟨⟨by decide, by decide, by decide, by decide⟩,
   (C8_error_status_not_cached mwNoBypass handler404 reqGET (newStore 10) (newStore 10)
     Heap.empty 0 (by decide) (by decide) (by decide) (by decide)).1⟩

/-- C10 witness: `C10_passthrough_no_store` on the POST request, the
201 handler, and the fresh capacity-10 store. -/
theorem C10_passthrough_witness :
    (isCacheable reqPOST = false ∨ mwNoBypass.bypassCache reqPOST = true) ∧
    serveHTTP mwNoBypass handler201 reqPOST (newStore 10) Heap.empty 0 =
      .ok { st := newStore 10, heap := Heap.empty
            sink := { status := some (handler201 reqPOST).status
                      header := (handler201 reqPOST).header
                      body := (handler201 reqPOST).body }
            storeGets := 0, storeSets := 0, downstreamDirect := 1, downstreamRecorded := 0 } :=
  ⟨Or.inl (by decide),
   C10_passthrough_no_store mwNoBypass handler201 reqPOST (newStore 10) Heap.empty 0
     (Or.inl (by decide))⟩

end Httpcache
